import Mathlib

/-!
Verification of the company-visits-tracker core: a shallow embedding of the
contract / folder / visit / document models and their operations, translated
from the Odoo module sources (`visit_contract.py`, `company_visit.py`,
`not_contracted_visit.py`, `visit_document.py`, `visit_folder.py`,
`extra_visit_wizard.py`), together with theorems settling the specification
claims about scheduling, numbering, document supersession, the signature
bridge and the wizard validation.
-/

namespace CVT

/-! ### String utilities

Python string operations used by the sources (`in`, `replace`, `split`,
`strip`, `lower`) and the Odoo domain operators `like` / `ilike` (both wrap
the pattern in `%...%`, i.e. substring containment, `ilike` case-insensitive),
modelled structurally over `List Char` so that all definitions reduce in the
kernel. -/

/-- Whitespace characters relevant for Python's `str.strip`. -/
def isSpaceChar (c : Char) : Bool :=
  c == ' ' || c == '\t' || c == '\n' || c == '\r'

/-- `isPre p l` : `p` is an initial segment of `l`. -/
def isPre : List Char → List Char → Bool
  | [], _ => true
  | _ :: _, [] => false
  | p :: ps, c :: cs => p == c && isPre ps cs

/-- `hasSub l pat` : `pat` occurs as a contiguous substring of `l`
(Python `pat in l`; SQL `LIKE '%pat%'`). -/
def hasSub : List Char → List Char → Bool
  | [], pat => pat.isEmpty
  | l@(_ :: rest), pat => isPre pat l || hasSub rest pat

/-- Python `pat in s`. -/
def strContains (s pat : String) : Bool :=
  hasSub s.data pat.data

/-- One pass of left-to-right non-overlapping replacement, with fuel
(`fuel ≥ l.length` and `old ≠ []` make it total and exact). -/
def replChars (fuel : Nat) (l old new : List Char) : List Char :=
  match fuel with
  | 0 => l
  | fuel + 1 =>
    match l with
    | [] => []
    | c :: rest =>
      if isPre old l then new ++ replChars fuel (l.drop old.length) old new
      else c :: replChars fuel rest old new

/-- Python `s.replace(old, new)` (for non-empty `old`, as in the sources). -/
def strReplace (s old new : String) : String :=
  if old.data.isEmpty then s
  else ⟨replChars s.data.length s.data old.data new.data⟩

/-- Helper for `pySplit`: split on a non-empty separator, with fuel. -/
def splitOnChars (fuel : Nat) (l pat : List Char) (cur : List Char) :
    List (List Char) :=
  match fuel with
  | 0 => [cur.reverse ++ l]
  | fuel + 1 =>
    match l with
    | [] => [cur.reverse]
    | c :: rest =>
      if isPre pat l then
        cur.reverse :: splitOnChars fuel (l.drop pat.length) pat []
      else splitOnChars fuel rest pat (c :: cur)

/-- Python `s.split(pat)` (for non-empty `pat`). -/
def pySplit (s pat : String) : List String :=
  if pat.data.isEmpty then [s]
  else (splitOnChars s.data.length s.data pat.data []).map (⟨·⟩)

/-- Python `s.strip()`. -/
def strTrim (s : String) : String :=
  ⟨((s.data.dropWhile isSpaceChar).reverse.dropWhile isSpaceChar).reverse⟩

/-- ASCII lower-casing of one character (sufficient for the names appearing
in the module: folder names, report names, the "Signed" marker). -/
def lowerChar (c : Char) : Char :=
  match c with
  | 'A' => 'a' | 'B' => 'b' | 'C' => 'c' | 'D' => 'd' | 'E' => 'e'
  | 'F' => 'f' | 'G' => 'g' | 'H' => 'h' | 'I' => 'i' | 'J' => 'j'
  | 'K' => 'k' | 'L' => 'l' | 'M' => 'm' | 'N' => 'n' | 'O' => 'o'
  | 'P' => 'p' | 'Q' => 'q' | 'R' => 'r' | 'S' => 's' | 'T' => 't'
  | 'U' => 'u' | 'V' => 'v' | 'W' => 'w' | 'X' => 'x' | 'Y' => 'y'
  | 'Z' => 'z' | c => c

/-- Lower-cased copy of a string. -/
def lowerStr (s : String) : String :=
  ⟨s.data.map lowerChar⟩

/-- Odoo `ilike` domain operator: case-insensitive substring containment
(the pattern is wrapped in `%...%` by the ORM). -/
def ilikeContains (s pat : String) : Bool :=
  hasSub (lowerStr s).data (lowerStr pat).data

/-- Decimal rendering of `n` left-padded with zeros to width `w`
(Python `f'{n:0{w}d}'`, `strftime` zero padding, `ir.sequence` padding). -/
def padNum (w n : Nat) : String :=
  let s := Nat.repr n
  ⟨List.replicate (w - s.length) '0' ++ s.data⟩

/-! ### Dates

`datetime.date` with `dateutil.relativedelta` month arithmetic, as used by
the scheduler.  `weekday` follows Python's convention (Monday = 0). -/

structure Date where
  year : Nat
  month : Nat
  day : Nat
deriving DecidableEq, Repr

/-- Gregorian leap year. -/
def isLeap (y : Nat) : Bool :=
  (y % 4 == 0 && y % 100 != 0) || y % 400 == 0

/-- Number of days of month `m` of year `y`. -/
def daysInMonth (y m : Nat) : Nat :=
  match m with
  | 2 => if isLeap y then 29 else 28
  | 4 => 30 | 6 => 30 | 9 => 30 | 11 => 30
  | _ => 31

/-- Days in the months of year `y` strictly before month `m`. -/
def daysBeforeMonth (y m : Nat) : Nat :=
  let base :=
    match m with
    | 1 => 0 | 2 => 31 | 3 => 59 | 4 => 90 | 5 => 120 | 6 => 151
    | 7 => 181 | 8 => 212 | 9 => 243 | 10 => 273 | 11 => 304 | _ => 334
  if 3 ≤ m && isLeap y then base + 1 else base

/-- Proleptic-Gregorian ordinal of a date (`date.toordinal`; 0001-01-01 ↦ 1). -/
def toOrdinal (d : Date) : Nat :=
  365 * (d.year - 1) + (d.year - 1) / 4 - (d.year - 1) / 100
    + (d.year - 1) / 400 + daysBeforeMonth d.year d.month + d.day

/-- Python `date.weekday()`: Monday = 0 … Sunday = 6. -/
def weekday (d : Date) : Nat :=
  (toOrdinal d + 6) % 7

/-- Chronological key: for the dates handled by the module
(`1 ≤ month ≤ 12`, `1 ≤ day ≤ 31`) it orders dates exactly as Python's
`date` comparison. -/
def dateKey (d : Date) : Nat :=
  (d.year * 16 + d.month) * 32 + d.day

/-- `dateutil` `d + relativedelta(months=k)`: shift the month index and cap
the day at the length of the resulting month. -/
def addMonthsI (d : Date) (k : Int) : Date :=
  let idx : Int := ((d.year * 12 + (d.month - 1) : Nat) : Int) + k
  let y := (idx.ediv 12).toNat
  let m := (idx.emod 12).toNat + 1
  ⟨y, m, min d.day (daysInMonth y m)⟩

/-- `relativedelta(d1, d2).years * 12 + relativedelta(d1, d2).months`:
the raw month-index difference, corrected so that `d2` shifted by the result
does not overshoot `d1` (the `dateutil` normalisation loop runs at most one
step for dates). -/
def monthsBetween (d1 d2 : Date) : Int :=
  let raw : Int := ((d1.year * 12 + d1.month : Nat) : Int)
    - ((d2.year * 12 + d2.month : Nat) : Int)
  if dateKey d1 < dateKey d2 then
    if dateKey (addMonthsI d2 raw) < dateKey d1 then raw + 1 else raw
  else
    if dateKey d1 < dateKey (addMonthsI d2 raw) then raw - 1 else raw

/-- `strftime('%B')`. -/
def monthName (m : Nat) : String :=
  match m with
  | 1 => "January" | 2 => "February" | 3 => "March" | 4 => "April"
  | 5 => "May" | 6 => "June" | 7 => "July" | 8 => "August"
  | 9 => "September" | 10 => "October" | 11 => "November" | _ => "December"

/-- `strftime('%Y-%m')` — the current-month key used by the scheduler. -/
def fmtYM (d : Date) : String :=
  padNum 4 d.year ++ "-" ++ padNum 2 d.month

/-- `strftime('%Y-%m (%B)')` — month folder names. -/
def fmtMonthFolder (d : Date) : String :=
  fmtYM d ++ " (" ++ monthName d.month ++ ")"

/-- Python `str(date)` / `f'{date}'` (ISO 8601). -/
def isoDate (d : Date) : String :=
  fmtYM d ++ "-" ++ padNum 2 d.day

/-! ### Contracts and the weekday-aware date computation

`VisitContract` (visit_contract.py): the fields consulted by
`_get_visit_dates_for_month`, `action_start_contract` and
`_cron_generate_monthly_visits`. -/

structure Contract where
  cid : Nat
  partnerId : Nat
  partnerName : String
  state : String
  folderId : Option Nat
  visitsPerMonth : Int
  startDate : Date
  endDate : Date
  visitOnMon : Bool
  visitOnTue : Bool
  visitOnWed : Bool
  visitOnThu : Bool
  visitOnFri : Bool
  visitOnSat : Bool
  visitOnSun : Bool
deriving DecidableEq, Repr

/-- The `preferred_weekdays` list built at the top of
`_get_visit_dates_for_month` (visit_contract.py lines 130-137). -/
def preferredWeekdays (c : Contract) : List Nat :=
  (if c.visitOnMon then [0] else []) ++ (if c.visitOnTue then [1] else [])
    ++ (if c.visitOnWed then [2] else []) ++ (if c.visitOnThu then [3] else [])
    ++ (if c.visitOnFri then [4] else []) ++ (if c.visitOnSat then [5] else [])
    ++ (if c.visitOnSun then [6] else [])

/-- The `potential_dates` loop (visit_contract.py lines 142-150): every day of
the target month whose weekday is preferred, ascending.  The `while` loop
starts at `target.replace(day=1)` and steps one day at a time up to the last
day of the month, i.e. it enumerates days `1 .. daysInMonth`. -/
def matchingDates (c : Contract) (target : Date) : List Date :=
  (List.range (daysInMonth target.year target.month)).filterMap fun i =>
    let d : Date := ⟨target.year, target.month, i + 1⟩
    if (preferredWeekdays c).contains (weekday d) then some d else none

/-- Chronological order on dates, used to model Python's `list.sort()` on
dates (all dates sorted by the module lie in one month, where `dateKey` is
exactly the chronological order). -/
def dle (a b : Date) : Prop := dateKey a ≤ dateKey b

instance : DecidableRel dle := fun a b =>
  inferInstanceAs (Decidable (dateKey a ≤ dateKey b))

instance : IsTotal Date dle := ⟨fun a b => Nat.le_total (dateKey a) (dateKey b)⟩

instance : IsTrans Date dle := ⟨fun _ _ _ => Nat.le_trans⟩

/-- `VisitContract._get_visit_dates_for_month(target_date, required_visits)`
(visit_contract.py lines 127-162).  Python's `[x] * n` for `n ≤ 0` is `[]`,
rendered here by `Int.toNat`. -/
def get_visit_dates_for_month (c : Contract) (targetDate : Date)
    (requiredVisits : Int) : List Date :=
  let pws := preferredWeekdays c
  if pws = [] ∨ requiredVisits ≤ 0 then
    List.replicate requiredVisits.toNat targetDate
  else
    let potentialDates := matchingDates c targetDate
    if potentialDates = [] then
      List.replicate requiredVisits.toNat targetDate
    else
      let potentialCount := potentialDates.length
      let finalDates := (List.range requiredVisits.toNat).map fun i =>
        potentialDates.getD (i % potentialCount) ⟨1, 1, 1⟩
      List.insertionSort dle finalDates

/-! ### Claim C2 -/

theorem getD_mem_of_lt {α : Type} :
    ∀ (l : List α) (k : Nat) (d : α), k < l.length → l.getD k d ∈ l := by
  intro l
  induction l with
  | nil => intro k d h; simp at h
  | cons a t ih =>
    intro k d h
    cases k with
    | zero => simp [List.getD]
    | succ k =>
      rw [List.getD_cons_succ]
      exact List.mem_cons_of_mem a (ih k d (Nat.lt_of_succ_lt_succ h))

theorem mem_matchingDates {c : Contract} {target d : Date}
    (hd : d ∈ matchingDates c target) :
    d.year = target.year ∧ d.month = target.month ∧
      (preferredWeekdays c).contains (weekday d) = true := by
  simp only [matchingDates, List.mem_filterMap, List.mem_range] at hd
  obtain ⟨i, _, heq⟩ := hd
  by_cases hc : (preferredWeekdays c).contains
      (weekday ⟨target.year, target.month, i + 1⟩) = true
  · rw [if_pos hc] at heq
    cases heq
    exact ⟨rfl, rfl, hc⟩
  · rw [if_neg (by simpa using hc)] at heq
    cases heq

/-- Claim C2: `_get_visit_dates_for_month(target_date, quota)` returns
`[target_date] * quota` when the weekday preference set is empty or no day of
the target month falls on a preferred weekday; otherwise it returns exactly
`quota` dates obtained by round-robin cycling (`dates[i % count]`) over the
ascending list of the month's preferred-weekday days, sorted ascending, so
every returned date lies in the target month on a preferred weekday. -/
theorem c2_weekday_distribution (c : Contract) (target : Date) (q : Int) :
    (preferredWeekdays c = [] ∨ matchingDates c target = [] →
      get_visit_dates_for_month c target q = List.replicate q.toNat target) ∧
    (preferredWeekdays c ≠ [] → matchingDates c target ≠ [] →
      (get_visit_dates_for_month c target q).length = q.toNat ∧
      (get_visit_dates_for_month c target q).Perm
        ((List.range q.toNat).map fun i =>
          (matchingDates c target).getD
            (i % (matchingDates c target).length) ⟨1, 1, 1⟩) ∧
      List.Sorted dle (get_visit_dates_for_month c target q) ∧
      ∀ d ∈ get_visit_dates_for_month c target q,
        (d ∈ matchingDates c target ∨ q ≤ 0) ∧
        (q ≤ 0 ∨ (d.year = target.year ∧ d.month = target.month ∧
          (preferredWeekdays c).contains (weekday d) = true))) := by
  constructor
  · intro h
    rcases h with h | h
    · simp [get_visit_dates_for_month, h]
    · by_cases hq : q ≤ 0
      · simp [get_visit_dates_for_month, hq]
      · simp [get_visit_dates_for_month, h, hq]
  · intro hp hm
    by_cases hq : q ≤ 0
    · have h0 : q.toNat = 0 := Int.toNat_of_nonpos hq
      simp [get_visit_dates_for_month, hq, h0, List.Sorted]
    · have harr : get_visit_dates_for_month c target q =
          List.insertionSort dle ((List.range q.toNat).map fun i =>
            (matchingDates c target).getD
              (i % (matchingDates c target).length) ⟨1, 1, 1⟩) := by
        simp [get_visit_dates_for_month, hp, hq, hm]
      rw [harr]
      refine ⟨?_, List.perm_insertionSort _ _, List.sorted_insertionSort _ _, ?_⟩
      · rw [List.length_insertionSort, List.length_map, List.length_range]
      · intro d hd
        rw [List.mem_insertionSort, List.mem_map] at hd
        obtain ⟨i, _, heq⟩ := hd
        have hlen : 0 < (matchingDates c target).length :=
          List.length_pos.mpr hm
        have hmem : d ∈ matchingDates c target := by
          rw [← heq]
          exact getD_mem_of_lt _ _ _ (Nat.mod_lt _ hlen)
        exact ⟨Or.inl hmem, Or.inr (mem_matchingDates hmem)⟩

/-- Witness for C2 at a concrete contract: quota 5, preference
{Monday, Wednesday}, October 2025 (4 Mondays, 5 Wednesdays). -/
def contractMonWed : Contract :=
  { cid := 1, partnerId := 1, partnerName := "Acme", state := "in_progress",
    folderId := some 10, visitsPerMonth := 5, startDate := ⟨2025, 3, 1⟩,
    endDate := ⟨2025, 12, 31⟩, visitOnMon := true, visitOnTue := false,
    visitOnWed := true, visitOnThu := false, visitOnFri := false,
    visitOnSat := false, visitOnSun := false }

theorem c2_witness :
    (get_visit_dates_for_month contractMonWed ⟨2025, 10, 12⟩ 5).length =
      (5 : Int).toNat :=
  ((c2_weekday_distribution contractMonWed ⟨2025, 10, 12⟩ 5).2
    (by decide) (by decide)).1

/-! ### Monthly generation (`_cron_generate_monthly_visits`)

State touched by the scheduler: `visit.folder` rows and `company.visit` rows
(with the fields consulted by its searches).  Visit creation side effects
that do not touch these rows (reference numbering, report documents) are
modelled by the dedicated embeddings further below. -/

structure GFolder where
  fid : Nat
  name : String
  parent : Option Nat
deriving DecidableEq, Repr

structure GVisit where
  contractId : Nat
  folderId : Option Nat
  date : Date
deriving DecidableEq, Repr

structure GenSt where
  folders : List GFolder
  visits : List GVisit
deriving DecidableEq, Repr

/-- `search_count([('contract_id','=',cid),('folder_id','=',fid)])`. -/
def countVisits (visits : List GVisit) (cid fid : Nat) : Nat :=
  (visits.filter fun v => v.contractId == cid && v.folderId == some fid).length

/-- The visit rows of one contract. -/
def visitsFor (cid : Nat) (visits : List GVisit) : List GVisit :=
  visits.filter fun v => v.contractId == cid

/-- `search([('parent_id','=',root),('name','like',f'{YYYY-MM}%')], limit=1)`
(the Odoo `like` operator wraps the pattern in `%...%`). -/
def monthFolderFind (folders : List GFolder) (rootId : Nat) (today : Date) :
    Option GFolder :=
  folders.find? fun f => f.parent == some rootId && strContains f.name (fmtYM today)

/-- One iteration of the contract loop of `_cron_generate_monthly_visits`
(visit_contract.py lines 225-250): skip without folder, skip without month
folder, skip when a visit already exists for (contract, month folder),
otherwise create one visit per computed date. -/
def cronStep (today : Date) (st : GenSt) (c : Contract) : GenSt × Nat :=
  match c.folderId with
  | none => (st, 0)
  | some rootId =>
    match monthFolderFind st.folders rootId today with
    | none => (st, 0)
    | some mf =>
      if countVisits st.visits c.cid mf.fid = 0 then
        let ds := get_visit_dates_for_month c today c.visitsPerMonth
        ({ st with
            visits := st.visits ++ ds.map fun d => ⟨c.cid, some mf.fid, d⟩ },
          ds.length)
      else (st, 0)

/-- The contract loop, accumulating `visits_created_total`. -/
def cronRun (today : Date) : List Contract → GenSt → GenSt × Nat
  | [], st => (st, 0)
  | c :: cs, st =>
    let r1 := cronStep today st c
    let r2 := cronRun today cs r1.1
    (r2.1, r1.2 + r2.2)

/-- `VisitContract._cron_generate_monthly_visits(specific_contracts)`
(visit_contract.py lines 214-252): with no specific contracts, process every
contract in state `in_progress`. -/
def cron_generate_monthly_visits (today : Date) (allContracts : List Contract)
    (specific : Option (List Contract)) (st : GenSt) : GenSt × Nat :=
  let contracts :=
    match specific with
    | some cs => cs
    | none => allContracts.filter fun c => c.state == "in_progress"
  cronRun today contracts st

/-! ### Claim C1 -/

theorem cronStep_eq_nofolder (today : Date) (st : GenSt) (c : Contract)
    (hf : c.folderId = none) : cronStep today st c = (st, 0) := by
  simp [cronStep, hf]

theorem cronStep_eq_nomonth (today : Date) (st : GenSt) (c : Contract)
    (rootId : Nat) (hf : c.folderId = some rootId)
    (hmf : monthFolderFind st.folders rootId today = none) :
    cronStep today st c = (st, 0) := by
  simp [cronStep, hf, hmf]

theorem cronStep_eq_existing (today : Date) (st : GenSt) (c : Contract)
    (rootId : Nat) (mf : GFolder) (hf : c.folderId = some rootId)
    (hmf : monthFolderFind st.folders rootId today = some mf)
    (h0 : countVisits st.visits c.cid mf.fid ≠ 0) :
    cronStep today st c = (st, 0) := by
  simp [cronStep, hf, hmf, h0]

theorem cronStep_eq_create (today : Date) (st : GenSt) (c : Contract)
    (rootId : Nat) (mf : GFolder) (hf : c.folderId = some rootId)
    (hmf : monthFolderFind st.folders rootId today = some mf)
    (h0 : countVisits st.visits c.cid mf.fid = 0) :
    cronStep today st c =
      ({ st with visits := st.visits ++
          ((get_visit_dates_for_month c today c.visitsPerMonth).map
            fun d => ⟨c.cid, some mf.fid, d⟩) },
        (get_visit_dates_for_month c today c.visitsPerMonth).length) := by
  simp [cronStep, hf, hmf, h0]

theorem cronStep_cases (today : Date) (st : GenSt) (c : Contract) :
    cronStep today st c = (st, 0) ∨
    ∃ rootId mf, c.folderId = some rootId ∧
      monthFolderFind st.folders rootId today = some mf ∧
      countVisits st.visits c.cid mf.fid = 0 ∧
      cronStep today st c =
        ({ st with visits := st.visits ++
            ((get_visit_dates_for_month c today c.visitsPerMonth).map
              fun d => ⟨c.cid, some mf.fid, d⟩) },
          (get_visit_dates_for_month c today c.visitsPerMonth).length) := by
  cases h1 : c.folderId with
  | none => exact Or.inl (cronStep_eq_nofolder today st c h1)
  | some rootId =>
    cases h2 : monthFolderFind st.folders rootId today with
    | none => exact Or.inl (cronStep_eq_nomonth today st c rootId h1 h2)
    | some mf =>
      by_cases h3 : countVisits st.visits c.cid mf.fid = 0
      · exact Or.inr ⟨rootId, mf, rfl, h2, h3,
          cronStep_eq_create today st c rootId mf h1 h2 h3⟩
      · exact Or.inl (cronStep_eq_existing today st c rootId mf h1 h2 h3)

theorem cronStep_folders (today : Date) (st : GenSt) (c : Contract) :
    (cronStep today st c).1.folders = st.folders := by
  rcases cronStep_cases today st c with h | ⟨r, mf, _, _, _, h⟩ <;> rw [h]

theorem cronRun_folders (today : Date) :
    ∀ (P : List Contract) (st : GenSt),
      (cronRun today P st).1.folders = st.folders := by
  intro P
  induction P with
  | nil => intro st; rfl
  | cons c cs ih =>
    intro st
    show (cronRun today cs (cronStep today st c).1).1.folders = st.folders
    rw [ih, cronStep_folders]

theorem countVisits_append (vs ws : List GVisit) (cid fid : Nat) :
    countVisits (vs ++ ws) cid fid =
      countVisits vs cid fid + countVisits ws cid fid := by
  simp [countVisits, List.filter_append]

theorem countVisits_step_le (today : Date) (st : GenSt) (c : Contract)
    (cid fid : Nat) :
    countVisits st.visits cid fid ≤
      countVisits (cronStep today st c).1.visits cid fid := by
  rcases cronStep_cases today st c with h | ⟨r, mf, _, _, _, h⟩
  · rw [h]
  · rw [h]
    dsimp only
    rw [countVisits_append]
    exact Nat.le_add_right _ _

theorem countVisits_run_le (today : Date) :
    ∀ (P : List Contract) (st : GenSt) (cid fid : Nat),
      countVisits st.visits cid fid ≤
        countVisits (cronRun today P st).1.visits cid fid := by
  intro P
  induction P with
  | nil => intro st cid fid; exact Nat.le_refl _
  | cons c cs ih =>
    intro st cid fid
    exact Nat.le_trans (countVisits_step_le today st c cid fid)
      (ih (cronStep today st c).1 cid fid)

theorem cronStep_skip (today : Date) (st : GenSt) (c : Contract)
    (rootId : Nat) (mf : GFolder) (hf : c.folderId = some rootId)
    (hmf : monthFolderFind st.folders rootId today = some mf)
    (hskip : countVisits st.visits c.cid mf.fid ≠ 0 ∨
      get_visit_dates_for_month c today c.visitsPerMonth = []) :
    cronStep today st c = (st, 0) := by
  rcases hskip with h | h
  · exact cronStep_eq_existing today st c rootId mf hf hmf h
  · by_cases h0 : countVisits st.visits c.cid mf.fid = 0
    · rw [cronStep_eq_create today st c rootId mf hf hmf h0, h]
      simp
    · exact cronStep_eq_existing today st c rootId mf hf hmf h0

theorem visitsFor_step_other (today : Date) (st : GenSt) (c : Contract)
    (cid : Nat) (hne : c.cid ≠ cid) :
    visitsFor cid (cronStep today st c).1.visits = visitsFor cid st.visits := by
  rcases cronStep_cases today st c with h | ⟨r, mf, _, _, _, h⟩
  · rw [h]
  · rw [h]
    dsimp only
    unfold visitsFor
    rw [List.filter_append]
    have hnil : (List.filter (fun v => v.contractId == cid)
        ((get_visit_dates_for_month c today c.visitsPerMonth).map
          fun d => (⟨c.cid, some mf.fid, d⟩ : GVisit))) = [] := by
      rw [List.filter_eq_nil_iff]
      intro a ha
      rw [List.mem_map] at ha
      obtain ⟨d, _, hd⟩ := ha
      rw [← hd]
      simpa using hne
    rw [hnil, List.append_nil]

theorem countVisits_step_other (today : Date) (st : GenSt) (c : Contract)
    (cid fid : Nat) (hne : c.cid ≠ cid) :
    countVisits (cronStep today st c).1.visits cid fid =
      countVisits st.visits cid fid := by
  rcases cronStep_cases today st c with h | ⟨r, mf, _, _, _, h⟩
  · rw [h]
  · rw [h]
    dsimp only
    rw [countVisits_append]
    have hz : countVisits
        ((get_visit_dates_for_month c today c.visitsPerMonth).map
          fun d => (⟨c.cid, some mf.fid, d⟩ : GVisit)) cid fid = 0 := by
      unfold countVisits
      rw [List.length_eq_zero, List.filter_eq_nil_iff]
      intro a ha
      rw [List.mem_map] at ha
      obtain ⟨d, _, hd⟩ := ha
      rw [← hd]
      simp [hne]
    rw [hz, Nat.add_zero]

theorem cronRun_visitsFor_other (today : Date) (cid : Nat) :
    ∀ (P : List Contract) (st : GenSt),
      (∀ c' ∈ P, c'.cid ≠ cid) →
      visitsFor cid (cronRun today P st).1.visits = visitsFor cid st.visits := by
  intro P
  induction P with
  | nil => intro st _; rfl
  | cons c cs ih =>
    intro st hall
    show visitsFor cid (cronRun today cs (cronStep today st c).1).1.visits = _
    rw [ih _ (fun c' hc' => hall c' (List.mem_cons_of_mem c hc')),
      visitsFor_step_other today st c cid (hall c (List.mem_cons_self c cs))]

theorem cronRun_drop_contract (today : Date) (c : Contract) (rootId : Nat)
    (mf : GFolder) (hf : c.folderId = some rootId) :
    ∀ (P : List Contract) (st : GenSt),
      (∀ c' ∈ P, c'.cid = c.cid → c' = c) →
      monthFolderFind st.folders rootId today = some mf →
      (countVisits st.visits c.cid mf.fid ≠ 0 ∨
        get_visit_dates_for_month c today c.visitsPerMonth = []) →
      cronRun today P st =
        cronRun today (P.filter fun x => x.cid ≠ c.cid) st := by
  intro P
  induction P with
  | nil => intro st _ _ _; rfl
  | cons c' cs ih =>
    intro st hdist hmf hskip
    by_cases hcid : c'.cid = c.cid
    · have hc' : c' = c := hdist c' (List.mem_cons_self c' cs) hcid
      subst hc'
      have hstep : cronStep today st c' = (st, 0) :=
        cronStep_skip today st c' rootId mf hf hmf hskip
      have hfilter : ((c' :: cs).filter fun x => x.cid ≠ c'.cid) =
          cs.filter fun x => x.cid ≠ c'.cid := by
        simp
      rw [hfilter]
      show ((cronRun today cs (cronStep today st c').1).1,
          (cronStep today st c').2 + (cronRun today cs (cronStep today st c').1).2) = _
      rw [hstep]
      have := ih st (fun x hx => hdist x (List.mem_cons_of_mem c' hx)) hmf hskip
      rw [← this]
      simp
    · have hfilter : ((c' :: cs).filter fun x => x.cid ≠ c.cid) =
          c' :: cs.filter fun x => x.cid ≠ c.cid := by
        simp [hcid]
      rw [hfilter]
      show ((cronRun today cs (cronStep today st c').1).1,
          (cronStep today st c').2 + (cronRun today cs (cronStep today st c').1).2) =
        ((cronRun today (cs.filter fun x => x.cid ≠ c.cid) (cronStep today st c').1).1,
          (cronStep today st c').2 +
            (cronRun today (cs.filter fun x => x.cid ≠ c.cid) (cronStep today st c').1).2)
      have hrec := ih (cronStep today st c').1
        (fun x hx => hdist x (List.mem_cons_of_mem c' hx))
        (by rw [cronStep_folders]; exact hmf)
        (by
          rcases hskip with h | h
          · exact Or.inl (by
              rw [countVisits_step_other today st c' c.cid mf.fid hcid]
              exact h)
          · exact Or.inr h)
      rw [hrec]

theorem cronRun_establishes (today : Date) (c : Contract) (rootId : Nat)
    (mf : GFolder) (hf : c.folderId = some rootId) :
    ∀ (P : List Contract) (st : GenSt),
      c ∈ P →
      monthFolderFind st.folders rootId today = some mf →
      (countVisits (cronRun today P st).1.visits c.cid mf.fid ≠ 0 ∨
        get_visit_dates_for_month c today c.visitsPerMonth = []) := by
  intro P
  induction P with
  | nil => intro st hmem; cases hmem
  | cons c' cs ih =>
    intro st hmem hmf
    by_cases hds : get_visit_dates_for_month c today c.visitsPerMonth = []
    · exact Or.inr hds
    · left
      rcases List.mem_cons.mp hmem with heq | hmem'
      · subst heq
        have hstep : countVisits (cronStep today st c).1.visits c.cid mf.fid ≠ 0 := by
          by_cases h0 : countVisits st.visits c.cid mf.fid = 0
          · rw [cronStep_eq_create today st c rootId mf hf hmf h0]
            dsimp only
            rw [countVisits_append, h0, Nat.zero_add]
            have hfull : countVisits
                ((get_visit_dates_for_month c today c.visitsPerMonth).map
                  fun d => (⟨c.cid, some mf.fid, d⟩ : GVisit)) c.cid mf.fid =
                (get_visit_dates_for_month c today c.visitsPerMonth).length := by
              unfold countVisits
              rw [List.filter_eq_self.mpr, List.length_map]
              intro a ha
              rw [List.mem_map] at ha
              obtain ⟨d, _, hd⟩ := ha
              rw [← hd]
              simp
            rw [hfull]
            intro hlen
            exact hds (List.length_eq_zero.mp hlen)
          · intro hz
            exact h0 (Nat.le_zero.mp (hz ▸ countVisits_step_le today st c c.cid mf.fid))
        show countVisits (cronRun today cs (cronStep today st c).1).1.visits c.cid mf.fid ≠ 0
        intro hz
        exact hstep (Nat.le_zero.mp
          (hz ▸ countVisits_run_le today cs (cronStep today st c).1 c.cid mf.fid))
      · have := ih (cronStep today st c').1 hmem'
          (by rw [cronStep_folders]; exact hmf)
        rcases this with h | h
        · exact h
        · exact absurd h hds

theorem filter_comm_cid (L : List Contract) (cid : Nat) :
    ((L.filter fun x => x.cid ≠ cid).filter fun c => c.state == "in_progress") =
      ((L.filter fun c => c.state == "in_progress").filter fun x => x.cid ≠ cid) := by
  rw [List.filter_filter, List.filter_filter]
  exact List.filter_congr fun x _ => Bool.and_comm _ _

/-- Claim C1: for a contract in state `in_progress` with a linked folder whose
current-month subfolder exists, if a visit already exists for (contract, month
folder) then monthly generation skips the contract — same state and count as
running the batch without it, and no visits of that contract are created; and
running generation twice creates visits for the contract only on the first
run, the second run contributing zero for it independently of the other
contracts of the batch. -/
theorem c1_generation_idempotent (today : Date) (st0 : GenSt)
    (L : List Contract) (c : Contract) (rootId : Nat) (mf : GFolder)
    (hstate : c.state = "in_progress") (hc : c ∈ L)
    (hf : c.folderId = some rootId)
    (hmf : monthFolderFind st0.folders rootId today = some mf)
    (hdist : ∀ c' ∈ L, c'.cid = c.cid → c' = c) :
    (countVisits st0.visits c.cid mf.fid ≠ 0 →
      cron_generate_monthly_visits today L none st0 =
        cron_generate_monthly_visits today
          (L.filter fun x => x.cid ≠ c.cid) none st0 ∧
      visitsFor c.cid (cron_generate_monthly_visits today L none st0).1.visits =
        visitsFor c.cid st0.visits) ∧
    (cron_generate_monthly_visits today L none
        (cron_generate_monthly_visits today L none st0).1 =
      cron_generate_monthly_visits today (L.filter fun x => x.cid ≠ c.cid) none
        (cron_generate_monthly_visits today L none st0).1 ∧
      visitsFor c.cid (cron_generate_monthly_visits today L none
          (cron_generate_monthly_visits today L none st0).1).1.visits =
        visitsFor c.cid (cron_generate_monthly_visits today L none st0).1.visits) := by
  have hcP : c ∈ L.filter fun c' => c'.state == "in_progress" :=
    List.mem_filter.mpr ⟨hc, by simp [hstate]⟩
  have hdistP : ∀ c' ∈ L.filter fun c' => c'.state == "in_progress",
      c'.cid = c.cid → c' = c :=
    fun c' hc' => hdist c' (List.mem_filter.mp hc').1
  have hother : ∀ c' ∈ (L.filter fun c' => c'.state == "in_progress").filter
      (fun x => x.cid ≠ c.cid), c'.cid ≠ c.cid := by
    intro c' hc'
    have := (List.mem_filter.mp hc').2
    simpa using this
  constructor
  · intro hcount
    have hdrop := cronRun_drop_contract today c rootId mf hf
      (L.filter fun c' => c'.state == "in_progress") st0 hdistP hmf
      (Or.inl hcount)
    constructor
    · show cronRun today (L.filter fun c' => c'.state == "in_progress") st0 = _
      rw [hdrop]
      show _ = cronRun today
        ((L.filter fun x => x.cid ≠ c.cid).filter
          fun c' => c'.state == "in_progress") st0
      rw [filter_comm_cid]
    · show visitsFor c.cid
        (cronRun today (L.filter fun c' => c'.state == "in_progress") st0).1.visits = _
      rw [hdrop]
      exact cronRun_visitsFor_other today c.cid _ st0 hother
  · have hmf1 : monthFolderFind
        (cron_generate_monthly_visits today L none st0).1.folders rootId today =
        some mf := by
      show monthFolderFind
        (cronRun today (L.filter fun c' => c'.state == "in_progress") st0).1.folders
        rootId today = some mf
      rw [cronRun_folders]
      exact hmf
    have hest := cronRun_establishes today c rootId mf hf
      (L.filter fun c' => c'.state == "in_progress") st0 hcP hmf
    have hdrop := cronRun_drop_contract today c rootId mf hf
      (L.filter fun c' => c'.state == "in_progress")
      (cron_generate_monthly_visits today L none st0).1 hdistP hmf1 hest
    constructor
    · show cronRun today (L.filter fun c' => c'.state == "in_progress") _ = _
      rw [hdrop]
      show _ = cronRun today
        ((L.filter fun x => x.cid ≠ c.cid).filter
          fun c' => c'.state == "in_progress") _
      rw [filter_comm_cid]
    · show visitsFor c.cid
        (cronRun today (L.filter fun c' => c'.state == "in_progress") _).1.visits = _
      rw [hdrop]
      exact cronRun_visitsFor_other today c.cid _ _ hother

/-- Witness scenario for C1: one in-progress contract, its root and
current-month folders, one already-existing visit for the month folder. -/
def genSt0 : GenSt :=
  { folders := [⟨10, "Acme", none⟩, ⟨11, "2025-10 (October)", some 10⟩],
    visits := [⟨1, some 11, ⟨2025, 10, 1⟩⟩] }

theorem c1_witness :
    visitsFor 1 (cron_generate_monthly_visits ⟨2025, 10, 12⟩ [contractMonWed]
        none genSt0).1.visits =
      visitsFor 1 genSt0.visits :=
  ((c1_generation_idempotent ⟨2025, 10, 12⟩ genSt0 [contractMonWed]
      contractMonWed 10 ⟨11, "2025-10 (October)", some 10⟩ rfl
      (List.mem_singleton.mpr rfl) rfl (by decide)
      (by intro c' hc' _; simpa using List.mem_singleton.mp hc')).1
    (by decide)).2

/-! ### Contract activation (`action_start_contract`) -/

structure C9Contract where
  partnerName : String
  state : String
  folderId : Option Nat
  startDate : Date
  endDate : Date
deriving DecidableEq, Repr

structure C9St where
  contract : C9Contract
  folders : List GFolder
  nextFolderId : Nat
deriving DecidableEq, Repr

/-- The child-folder names produced by the loop of `action_start_contract`
(visit_contract.py lines 174-183): `total_months = relativedelta(end, start)`
full months; for `i in range(total_months + 1)` take `start + i months`,
breaking as soon as the date exceeds `end_date`, and format each kept date as
`'%Y-%m (%B)'`.  (Python `range` of a non-positive bound is empty, rendered
by `Int.toNat`.) -/
def childFolderNames (startD endD : Date) : List String :=
  let total : Int := monthsBetween endD startD
  ((((List.range (total + 1).toNat).map
      fun i => addMonthsI startD (i : Int)).takeWhile
      fun d => dateKey d ≤ dateKey endD).map fmtMonthFolder)

/-- `VisitContract.action_start_contract` (visit_contract.py lines 168-191):
raise unless the state is `draft`; if no folder is linked yet, create the
root folder (named after the partner) with one child folder per generated
month name; finally set the state to `in_progress`. -/
def action_start_contract (st : C9St) : Except String C9St :=
  if st.contract.state ≠ "draft" then
    Except.error "The contract must be in a draft state to start it."
  else
    let st1 :=
      match st.contract.folderId with
      | some _ => st
      | none =>
        let names := childFolderNames st.contract.startDate st.contract.endDate
        let rootId := st.nextFolderId
        { st with
          contract := { st.contract with folderId := some rootId },
          folders := st.folders
            ++ [(⟨rootId, st.contract.partnerName, none⟩ : GFolder)]
            ++ (names.enum.map
              fun (p : Nat × String) =>
                (⟨rootId + 1 + p.1, p.2, some rootId⟩ : GFolder)),
          nextFolderId := rootId + 1 + names.length }
    Except.ok { st1 with contract := { st1.contract with state := "in_progress" } }

/-! ### Claim C9 -/

/-- Modelled from the claim's words ("one child folder per calendar month
covered by `[start_date, end_date]`"): the number of calendar months whose
days intersect the closed interval, for `start ≤ end`. -/
def coveredMonthCount (startD endD : Date) : Int :=
  ((endD.year * 12 + endD.month : Nat) : Int)
    - ((startD.year * 12 + startD.month : Nat) : Int) + 1

def contractJanMar : C9Contract :=
  { partnerName := "Acme", state := "draft", folderId := none,
    startDate := ⟨2025, 1, 31⟩, endDate := ⟨2025, 3, 1⟩ }

def c9St0 : C9St := { contract := contractJanMar, folders := [], nextFolderId := 0 }

/-- Counterexample to C9 as stated: a draft contract running from 2025-01-31
to 2025-03-01 covers three calendar months (January, February, March), but
activation creates only two child folders (`2025-01 (January)` and
`2025-02 (February)`): `relativedelta` yields one full month, and
`2025-01-31 + 2 months = 2025-03-31 > end`, so March is never reached. -/
theorem c9_counterexample :
    (action_start_contract c9St0).toOption.map
        (fun st' => ((st'.folders.filter fun f => f.parent == some 0).length : Int))
      = some 2 ∧
    coveredMonthCount contractJanMar.startDate contractJanMar.endDate = 3 ∧
    (action_start_contract c9St0).toOption.map
        (fun st' => (st'.folders.filter fun f => f.parent == some 0).map GFolder.name)
      = some ["2025-01 (January)", "2025-02 (February)"] := by
  decide

/-- Claim C9 (amended): `action_start_contract` raises unless the state is
`draft`; on success it sets the state to `in_progress`; when no folder is
linked it creates one root folder plus one child folder per month name of
`childFolderNames` — the months `start + i·month` for `0 ≤ i ≤` the
`relativedelta` full-month count while the date stays `≤ end_date` (this may
omit the final covered calendar month when the start's day-of-month exceeds
the end's, which is what the counterexample exhibits); when a folder is
already linked folder creation is skipped; and on any success the folder is
linked, the state is not `draft`, and a second invocation raises. -/
theorem c9_start_contract (st : C9St) :
    (st.contract.state ≠ "draft" →
      action_start_contract st =
        Except.error "The contract must be in a draft state to start it.") ∧
    (st.contract.state = "draft" → st.contract.folderId = none →
      action_start_contract st = Except.ok
        { contract :=
            { st.contract with
              folderId := some st.nextFolderId,
              state := "in_progress" },
          folders := st.folders
            ++ [⟨st.nextFolderId, st.contract.partnerName, none⟩]
            ++ (((childFolderNames st.contract.startDate
                st.contract.endDate).enum).map
              fun p => ⟨st.nextFolderId + 1 + p.1, p.2, some st.nextFolderId⟩),
          nextFolderId := st.nextFolderId + 1
            + (childFolderNames st.contract.startDate st.contract.endDate).length }) ∧
    (∀ fid, st.contract.state = "draft" → st.contract.folderId = some fid →
      action_start_contract st = Except.ok
        { st with contract := { st.contract with state := "in_progress" } }) ∧
    (∀ st', action_start_contract st = Except.ok st' →
      st'.contract.folderId.isSome = true ∧
      st'.contract.state = "in_progress" ∧
      action_start_contract st' =
        Except.error "The contract must be in a draft state to start it.") := by
  refine ⟨?_, ?_, ?_, ?_⟩
  · intro h
    simp [action_start_contract, h]
  · intro h hf
    simp [action_start_contract, h, hf]
  · intro fid h hf
    simp [action_start_contract, h, hf]
  · intro st' hok
    by_cases h : st.contract.state = "draft"
    · cases hf : st.contract.folderId with
      | none =>
        simp only [action_start_contract, h, hf] at hok
        simp at hok
        subst hok
        refine ⟨rfl, rfl, ?_⟩
        simp [action_start_contract]
      | some fid =>
        simp only [action_start_contract, h, hf] at hok
        simp at hok
        subst hok
        refine ⟨by simp [hf], rfl, ?_⟩
        simp [action_start_contract]
    · simp [action_start_contract, h] at hok

/-- Witness for the amended C9 at the concrete draft contract. -/
theorem c9_witness :
    action_start_contract c9St0 = Except.ok
      { contract :=
          { contractJanMar with
            folderId := some 0,
            state := "in_progress" },
        folders := [⟨0, "Acme", none⟩, ⟨1, "2025-01 (January)", some 0⟩,
          ⟨2, "2025-02 (February)", some 0⟩],
        nextFolderId := 3 } := by
  have h := (c9_start_contract c9St0).2.1 rfl rfl
  rw [h]
  exact congrArg Except.ok (by decide)

/-! ### Visit numbering (`CompanyVisit.create`) -/

/-- One `ir.sequence` row: `code`, `prefix`, `padding`, `number_next`. -/
structure SeqRec where
  code : String
  pre : String
  padding : Nat
  nextNum : Nat
deriving DecidableEq, Repr

/-- `ir.sequence.next_by_id()`: render the next value and bump the counter. -/
def seqNext (s : SeqRec) : String × SeqRec :=
  (s.pre ++ padNum s.padding s.nextNum, { s with nextNum := s.nextNum + 1 })

/-- Fetch-or-create of the per-partner sequence (company_visit.py lines
138-150) followed by `next_by_id`: sequences created mid-batch are visible to
the later rows of the same batch. -/
def bumpSeq (seqs : List SeqRec) (code : String) (mk : SeqRec) :
    String × List SeqRec :=
  match seqs.find? fun s => s.code == code with
  | some s =>
    ((seqNext s).1, seqs.map fun t => if t.code == code then (seqNext s).2 else t)
  | none => ((seqNext mk).1, seqs ++ [(seqNext mk).2])

/-- A stored `company.visit` row: the fields written by `create`. -/
structure V3 where
  name : String
  visitNumber : Nat
  contractId : Nat
deriving DecidableEq, Repr

structure DB3 where
  seqs : List SeqRec
  visits : List V3
deriving DecidableEq, Repr

/-- The creation values relevant to numbering. -/
structure CVVals where
  contractId : Nat
deriving DecidableEq, Repr

/-- `CompanyVisit.create(vals_list)` (company_visit.py lines 123-166).  The
`for vals in vals_list` loop assigns, per row, the per-partner sequence
reference (`next_by_id`, threading sequence counters) and
`visit_number := search_count([('contract_id','=',contract.id)]) + 1` —
the count is taken against the **pre-batch** database, because
`super().create(vals_list)` runs only after the whole loop.  Rows whose
contract is not found keep the defaults (`name = 'New'`, no number). -/
def company_visit_create (contracts : List Contract) (db : DB3)
    (valsList : List CVVals) : DB3 :=
  let fold := valsList.foldl (fun (acc : List SeqRec × List V3) vals =>
    match contracts.find? fun c => c.cid == vals.contractId with
    | none => (acc.1, acc.2 ++ [⟨"New", 0, vals.contractId⟩])
    | some c =>
      let code := "company.visit." ++ Nat.repr c.partnerId
      let mk : SeqRec :=
        { code := code, pre := c.partnerName ++ "-VST-", padding := 3,
          nextNum := 1 }
      let r := bumpSeq acc.1 code mk
      let count := (db.visits.filter fun v => v.contractId == vals.contractId).length
      (r.2, acc.2 ++ [⟨r.1, count + 1, vals.contractId⟩])) (db.seqs, [])
  { seqs := fold.1, visits := db.visits ++ fold.2 }

/-! ### Claim C3 -/

/-- Claim C3 failing input: creating two visits for the same contract in one
`create` batch assigns both the same `visit_number` (`search_count + 1` is
computed for every row against the pre-batch table), so the numbers are
`[1, 1]` — not unique within the scope, contradicting the claim — while the
per-partner sequence references stay distinct, and sequential singleton
`create` calls (the in-repo call pattern) do number `1, 2`. -/
theorem c3_duplicate_visit_numbers :
    ((company_visit_create [contractMonWed] ⟨[], []⟩ [⟨1⟩, ⟨1⟩]).visits.map
        V3.visitNumber) = [1, 1] ∧
    ((company_visit_create [contractMonWed] ⟨[], []⟩ [⟨1⟩, ⟨1⟩]).visits.map
        V3.name) = ["Acme-VST-001", "Acme-VST-002"] ∧
    ((company_visit_create [contractMonWed]
        (company_visit_create [contractMonWed] ⟨[], []⟩ [⟨1⟩]) [⟨1⟩]).visits.map
        V3.visitNumber) = [1, 2] := by
  decide

/-! ### Document storage and the signed-document cleanup
(`VisitDocument.create`) -/

/-- A stored `visit.document` row: the fields consulted by the cleanup. -/
structure VDoc where
  did : Nat
  name : String
  folderId : Option Nat
deriving DecidableEq, Repr

/-- The base-name extraction of `VisitDocument.create` (visit_document.py
lines 101-106): strip the "Signed" marker variants, then `strip()`. -/
def stripSignedBase (n : String) : String :=
  strTrim (strReplace (strReplace (strReplace n
    "Signed Visit Report - " "Visit Report - ") "Signed " "") " - Signed" "")

/-- The `-VST-` fragment of the second search domain (line 117):
`res.name.split('-VST-')[-1].split('.')[0]` when `-VST-` occurs in the name,
else the empty pattern (which `ilike` matches against everything). -/
def vstFragment (n : String) : String :=
  if strContains n "-VST-" then
    (pySplit ((pySplit n "-VST-").getLastD n) ".").headD ((pySplit n "-VST-").getLastD n)
  else ""

/-- `VisitDocument.create` (visit_document.py lines 92-132): insert the
document; when its name carries the "Signed" marker, run the three search
domains in order — exact base name in the same folder; `ilike` on the `-VST-`
fragment and not `ilike 'Signed'` in the same folder; any non-"Signed"
document in the same folder — and `unlink` the first match (`limit=1`,
default id order); zero matches only logs.  Returns the store and the next
fresh id. -/
def visit_document_create (docs : List VDoc) (nextId : Nat)
    (name : String) (folderId : Option Nat) : List VDoc × Nat :=
  let res : VDoc := ⟨nextId, name, folderId⟩
  let docs1 := docs ++ [res]
  if strContains name "Signed" then
    let base := stripSignedBase name
    match docs1.find? fun doc =>
        doc.folderId == folderId && doc.name == base && doc.did != res.did with
    | some u => (docs1.filter fun doc => doc.did != u.did, nextId + 1)
    | none =>
      let frag := vstFragment name
      match docs1.find? fun doc =>
          doc.folderId == folderId && ilikeContains doc.name frag &&
            !ilikeContains doc.name "Signed" && doc.did != res.did with
      | some u => (docs1.filter fun doc => doc.did != u.did, nextId + 1)
      | none =>
        match docs1.find? fun doc =>
            doc.folderId == folderId && !ilikeContains doc.name "Signed" &&
              doc.did != res.did with
        | some u => (docs1.filter fun doc => doc.did != u.did, nextId + 1)
        | none => (docs1, nextId + 1)
  else (docs1, nextId + 1)

/-! ### Claim C4 -/

theorem filter_comm_gen {α : Type} (p q : α → Bool) (l : List α) :
    (l.filter p).filter q = (l.filter q).filter p := by
  rw [List.filter_filter, List.filter_filter]
  exact List.filter_congr fun x _ => Bool.and_comm _ _

/-- When the `q`-satisfiers of `l` are exactly the one element `u`, and `p`
implies `q` on `l`, a `p`-search returns `u` as soon as `u` satisfies `p`. -/
theorem find_eq_of_filter_singleton {α : Type} {p q : α → Bool} {l : List α}
    {u : α} (hf : l.filter q = [u])
    (himp : ∀ a ∈ l, p a = true → q a = true) (hu : p u = true) :
    l.find? p = some u := by
  induction l with
  | nil => simp at hf
  | cons a t ih =>
    by_cases hpa : p a = true
    · have hqa : q a = true := himp a (List.mem_cons_self a t) hpa
      rw [List.filter_cons_of_pos hqa] at hf
      have hau : a = u := by
        have := List.cons.injEq a (t.filter q) u [] ▸ hf
        exact (List.cons.inj hf).1
      rw [List.find?_cons_of_pos t hpa, hau]
    · rw [List.find?_cons_of_neg t hpa]
      by_cases hqa : q a = true
      · rw [List.filter_cons_of_pos hqa] at hf
        have hau : a = u := (List.cons.inj hf).1
        rw [hau] at hpa
        exact absurd hu hpa
      · rw [List.filter_cons_of_neg hqa] at hf
        exact ih hf fun x hx => himp x (List.mem_cons_of_mem a hx)

/-- The stored documents belonging to one visit reference: same folder,
named either the unsigned base name or the signed name. -/
def refDocs (docs : List VDoc) (f : Option Nat) (base signedName : String) :
    List VDoc :=
  docs.filter fun doc =>
    doc.folderId == f && (doc.name == base || doc.name == signedName)

/-- Claim C4: creating a Document whose name carries the "Signed" marker
deletes the unsigned Document of the same folder matching the base
(un-marked) name, so that exactly one Document remains for that visit
reference — the signed one; and with no unsigned match the creation still
succeeds (and deletes nothing). -/
theorem c4_signed_supersession (docs : List VDoc) (nextId : Nat)
    (name : String) (f : Option Nat)
    (hsigned : strContains name "Signed" = true) :
    (∀ u, refDocs docs f (stripSignedBase name) name = [u] →
      u.name = stripSignedBase name → u.did ≠ nextId →
      visit_document_create docs nextId name f =
        ((docs ++ [(⟨nextId, name, f⟩ : VDoc)]).filter
            fun doc => doc.did != u.did,
          nextId + 1) ∧
      refDocs (visit_document_create docs nextId name f).1 f
          (stripSignedBase name) name = [⟨nextId, name, f⟩]) ∧
    ((∀ doc ∈ docs, doc.folderId ≠ f) →
      visit_document_create docs nextId name f =
        (docs ++ [(⟨nextId, name, f⟩ : VDoc)], nextId + 1)) := by
  constructor
  · intro u href huname hudid
    have humem : u ∈ refDocs docs f (stripSignedBase name) name := by
      rw [href]
      exact List.mem_singleton.mpr rfl
    have hurefp := (List.mem_filter.mp humem).2
    have hufolder : (u.folderId == f) = true := by
      rw [Bool.and_eq_true] at hurefp
      exact hurefp.1
    have href' : docs.filter (fun doc =>
        doc.folderId == f &&
          (doc.name == stripSignedBase name || doc.name == name)) = [u] := href
    have hfindDocs : docs.find? (fun doc =>
        doc.folderId == f && doc.name == stripSignedBase name &&
          doc.did != nextId) = some u := by
      refine find_eq_of_filter_singleton (q := fun doc =>
        doc.folderId == f &&
          (doc.name == stripSignedBase name || doc.name == name)) href' ?_ ?_
      · intro a _ hpa
        rw [Bool.and_eq_true, Bool.and_eq_true] at hpa
        rw [Bool.and_eq_true]
        exact ⟨hpa.1.1, by rw [Bool.or_eq_true]; exact Or.inl hpa.1.2⟩
      · rw [Bool.and_eq_true, Bool.and_eq_true]
        exact ⟨⟨hufolder, beq_iff_eq.mpr huname⟩, bne_iff_ne.mpr hudid⟩
    have hfind1 : ((docs ++ [(⟨nextId, name, f⟩ : VDoc)]).find? fun doc =>
        doc.folderId == f && doc.name == stripSignedBase name &&
          doc.did != nextId) = some u := by
      rw [List.find?_append, hfindDocs]
      rfl
    have hmain : visit_document_create docs nextId name f =
        ((docs ++ [(⟨nextId, name, f⟩ : VDoc)]).filter
            fun doc => doc.did != u.did,
          nextId + 1) := by
      simp only [visit_document_create, hsigned, if_true]
      rw [hfind1]
    refine ⟨hmain, ?_⟩
    rw [hmain]
    show refDocs ((docs ++ [(⟨nextId, name, f⟩ : VDoc)]).filter
        fun doc => doc.did != u.did) f (stripSignedBase name) name = _
    unfold refDocs
    rw [filter_comm_gen, List.filter_append]
    have h1 : docs.filter (fun doc =>
        doc.folderId == f &&
          (doc.name == stripSignedBase name || doc.name == name)) = [u] := href
    rw [h1]
    have h2 : List.filter (fun doc =>
        doc.folderId == f &&
          (doc.name == stripSignedBase name || doc.name == name))
        [(⟨nextId, name, f⟩ : VDoc)] = [⟨nextId, name, f⟩] := by
      simp
    rw [h2]
    have h3 : (u.did != u.did) = false := by simp
    have h4 : ((nextId : Nat) != u.did) = true := bne_iff_ne.mpr (Ne.symm hudid)
    simp [h3, h4]
  · intro hnone
    have hres : ∀ (p : VDoc → Bool),
        (∀ doc, doc.folderId ≠ f → p doc = false) →
        (p ⟨nextId, name, f⟩ = false ∨
          (∀ doc, p doc = true → (doc.did != nextId) = true)) →
        ((docs ++ [(⟨nextId, name, f⟩ : VDoc)]).find? p) = none := by
      intro p hp hres
      rw [List.find?_eq_none]
      intro x hx
      rcases List.mem_append.mp hx with hxd | hxr
      · rw [hp x (hnone x hxd)]
        simp
      · rw [List.mem_singleton.mp hxr]
        rcases hres with h | h
        · rw [h]; simp
        · intro hpx
          have := h _ hpx
          simp at this
    have hf1 := hres (fun doc =>
        doc.folderId == f && doc.name == stripSignedBase name &&
          doc.did != nextId)
      (by
        intro doc hdf
        have : (doc.folderId == f) = false := by
          simpa using hdf
        simp [this])
      (Or.inr (by
        intro doc h
        rw [Bool.and_eq_true, Bool.and_eq_true] at h
        exact h.2))
    have hf2 := hres (fun doc =>
        doc.folderId == f && ilikeContains doc.name (vstFragment name) &&
          !ilikeContains doc.name "Signed" && doc.did != nextId)
      (by
        intro doc hdf
        have : (doc.folderId == f) = false := by
          simpa using hdf
        simp [this])
      (Or.inr (by
        intro doc h
        rw [Bool.and_eq_true, Bool.and_eq_true, Bool.and_eq_true] at h
        exact h.2))
    have hf3 := hres (fun doc =>
        doc.folderId == f && !ilikeContains doc.name "Signed" &&
          doc.did != nextId)
      (by
        intro doc hdf
        have : (doc.folderId == f) = false := by
          simpa using hdf
        simp [this])
      (Or.inr (by
        intro doc h
        rw [Bool.and_eq_true, Bool.and_eq_true] at h
        exact h.2))
    simp only [visit_document_create, hsigned, if_true]
    rw [hf1, hf2, hf3]

/-- Witness for C4: the unsigned draft `Visit Report - Acme-VST-001.pdf`
in folder 5 is superseded by the signed document; exactly the signed one
remains for the reference. -/
theorem c4_witness :
    refDocs (visit_document_create
        [⟨0, "Visit Report - Acme-VST-001.pdf", some 5⟩] 1
        "Signed Visit Report - Acme-VST-001.pdf" (some 5)).1 (some 5)
      (stripSignedBase "Signed Visit Report - Acme-VST-001.pdf")
      "Signed Visit Report - Acme-VST-001.pdf" =
      [⟨1, "Signed Visit Report - Acme-VST-001.pdf", some 5⟩] :=
  ((c4_signed_supersession
      [⟨0, "Visit Report - Acme-VST-001.pdf", some 5⟩] 1
      "Signed Visit Report - Acme-VST-001.pdf" (some 5) (by decide)).1
    ⟨0, "Visit Report - Acme-VST-001.pdf", some 5⟩
    (by decide) (by decide) (by decide)).2

/-! ### Signature bridge (`SignRequest.write` in company_visit.py)

State touched by the completion handler of one `sign.request` record: the
linked visit (either variant), the folder tree, the document store (whose
`create` runs the C4 cleanup), and the request's own fields.  The
`state != 'signed'` check in the source only logs a warning. -/

/-- The fields of a linked visit consulted by `_save_signed_report_to_folder`
and the state transition. -/
structure VisitSlot where
  name : String
  partnerName : Option String
  state : String
deriving DecidableEq, Repr

structure SignSt where
  cv : Option VisitSlot
  ncv : Option VisitSlot
  reqState : String
  completedDocument : Option String
  folders : List GFolder
  nextFolderId : Nat
  docs : List VDoc
  nextDocId : Nat
  signedRootId : Option Nat
deriving DecidableEq, Repr

/-- `_save_signed_report_to_folder(signed_pdf_data)` (company_visit.py lines
219-267 and the identical not_contracted_visit.py lines 189-239): return
unchanged when no data or no partner; inside `try` (any failure logged and
swallowed): resolve the well-known "Signed Reports" root (missing reference
raises, hence caught — unchanged), find or create the per-partner subfolder,
then create the `Signed Visit Report - {name}.pdf` document (which runs the
`visit.document` cleanup of C4). -/
def save_signed_report_to_folder (st : SignSt) (visitName : String)
    (partner : Option String) (payload : Option String) : SignSt :=
  match payload with
  | none => st
  | some p =>
    if p = "" then st
    else
      match partner with
      | none => st
      | some pname =>
        match st.signedRootId with
        | none => st
        | some root =>
          let pf :=
            match st.folders.find? fun fo =>
                fo.name == pname && fo.parent == some root with
            | some fo => (fo.fid, st)
            | none => (st.nextFolderId,
                { st with
                  folders := st.folders
                    ++ [(⟨st.nextFolderId, pname, some root⟩ : GFolder)],
                  nextFolderId := st.nextFolderId + 1 })
          let rname := "Signed Visit Report - " ++ visitName ++ ".pdf"
          let r := visit_document_create pf.2.docs pf.2.nextDocId rname
            (some pf.1)
          { pf.2 with docs := r.1, nextDocId := r.2 }

/-- `SignRequest.write(vals)` (company_visit.py lines 416-461): `super()`
first applies the field update; then, only when `vals` carries a truthy
`completed_document`, save the signed report for the linked contracted
and/or non-contracted visit and mark each `done` if still `pending`.
`valsCompleted = none` models `vals` without the key. -/
def sign_request_write (st : SignSt) (valsCompleted : Option String) : SignSt :=
  let st0 :=
    match valsCompleted with
    | none => st
    | some p => { st with completedDocument := some p }
  match valsCompleted with
  | none => st0
  | some p =>
    if p = "" then st0
    else
      let st1 :=
        match st0.cv with
        | none => st0
        | some slot =>
          let st' := save_signed_report_to_folder st0 slot.name
            slot.partnerName st0.completedDocument
          if slot.state == "pending" then
            { st' with cv := some { slot with state := "done" } }
          else { st' with cv := some slot }
      match st1.ncv with
      | none => st1
      | some slot =>
        let st' := save_signed_report_to_folder st1 slot.name
          slot.partnerName st1.completedDocument
        if slot.state == "pending" then
          { st' with ncv := some { slot with state := "done" } }
        else { st' with ncv := some slot }

/-! ### Claim C5 -/

/-- `_save_signed_report_to_folder` never touches the linked-visit fields or
the stored payload of the request. -/
theorem save_preserves_links (st : SignSt) (n : String) (pn : Option String)
    (pl : Option String) :
    (save_signed_report_to_folder st n pn pl).cv = st.cv ∧
    (save_signed_report_to_folder st n pn pl).ncv = st.ncv := by
  unfold save_signed_report_to_folder
  repeat' split
  all_goals simp

def signSt0 : SignSt :=
  { cv := some ⟨"Acme-VST-001", some "Acme", "pending"⟩, ncv := none,
    reqState := "sent", completedDocument := none,
    folders := [⟨0, "Signed Reports", none⟩], nextFolderId := 1,
    docs := [], nextDocId := 0, signedRootId := some 0 }

/-- Counterexample to C5 as stated: invoking the completion handler a second
time for the same event is *not* a no-op — the second call stores a second
copy of the signed report document (the cleanup never matches it, since the
partner folder holds only "Signed" documents), so the resulting state differs
from the first call's. -/
theorem c5_counterexample :
    sign_request_write (sign_request_write signSt0 (some "PDF")) (some "PDF") ≠
      sign_request_write signSt0 (some "PDF") ∧
    ((sign_request_write (sign_request_write signSt0 (some "PDF"))
        (some "PDF")).docs.map VDoc.name) =
      ["Signed Visit Report - Acme-VST-001.pdf",
        "Signed Visit Report - Acme-VST-001.pdf"] ∧
    (sign_request_write signSt0 (some "PDF")).docs.length = 1 := by
  decide

/-- The signed report name always carries the "Signed" marker. -/
theorem strContains_signedName (v : String) :
    strContains ("Signed Visit Report - " ++ v ++ ".pdf") "Signed" = true := by
  rfl

/-- Creating a `Signed Visit Report - {v}.pdf` document in a folder whose
documents all carry the "Signed" marker and none of which is named like the
stripped base deletes nothing: all three cleanup domains miss, and the store
just grows by the new document. -/
theorem signed_create_appends (docs : List VDoc) (nextId : Nat)
    (vname : String) (fid : Nat)
    (hclean : ∀ doc ∈ docs, doc.folderId = some fid →
      ilikeContains doc.name "Signed" = true ∧
      doc.name ≠ stripSignedBase
        ("Signed Visit Report - " ++ vname ++ ".pdf")) :
    visit_document_create docs nextId
        ("Signed Visit Report - " ++ vname ++ ".pdf") (some fid) =
      (docs ++ [⟨nextId, "Signed Visit Report - " ++ vname ++ ".pdf",
        some fid⟩], nextId + 1) := by
  have hrname := strContains_signedName vname
  have hpernone : ∀ (q : VDoc → Bool),
      (∀ doc ∈ docs, doc.folderId = some fid → q doc = false) →
      (∀ doc, doc.folderId ≠ some fid → q doc = false) →
      (q ⟨nextId, "Signed Visit Report - " ++ vname ++ ".pdf",
        some fid⟩ = false) →
      ((docs ++ [(⟨nextId, "Signed Visit Report - " ++ vname ++ ".pdf",
        some fid⟩ : VDoc)]).find? q) = none := by
    intro q h1 h2 h3
    rw [List.find?_eq_none]
    intro x hx
    rcases List.mem_append.mp hx with hxd | hxr
    · by_cases hfold : x.folderId = some fid
      · rw [h1 x hxd hfold]; simp
      · rw [h2 x hfold]; simp
    · rw [List.mem_singleton.mp hxr, h3]; simp
  have hn1 : ((docs ++ [(⟨nextId,
      "Signed Visit Report - " ++ vname ++ ".pdf",
      some fid⟩ : VDoc)]).find? fun doc =>
        doc.folderId == some fid &&
          doc.name == stripSignedBase
            ("Signed Visit Report - " ++ vname ++ ".pdf") &&
          doc.did != nextId) = none := by
    apply hpernone
    · intro doc hd hfold
      have hone := (hclean doc hd hfold).2
      have hnb : (doc.name == stripSignedBase
          ("Signed Visit Report - " ++ vname ++ ".pdf")) = false := by
        simpa using hone
      simp [hnb]
    · intro doc hfold
      have hnf : (doc.folderId == some fid) = false := by
        simpa using hfold
      simp [hnf]
    · simp
  have hn2 : ((docs ++ [(⟨nextId,
      "Signed Visit Report - " ++ vname ++ ".pdf",
      some fid⟩ : VDoc)]).find? fun doc =>
        doc.folderId == some fid &&
          ilikeContains doc.name (vstFragment
            ("Signed Visit Report - " ++ vname ++ ".pdf")) &&
          !ilikeContains doc.name "Signed" &&
          doc.did != nextId) = none := by
    apply hpernone
    · intro doc hd hfold
      have hsig := (hclean doc hd hfold).1
      simp [hsig]
    · intro doc hfold
      have hnf : (doc.folderId == some fid) = false := by
        simpa using hfold
      simp [hnf]
    · simp
  have hn3 : ((docs ++ [(⟨nextId,
      "Signed Visit Report - " ++ vname ++ ".pdf",
      some fid⟩ : VDoc)]).find? fun doc =>
        doc.folderId == some fid &&
          !ilikeContains doc.name "Signed" &&
          doc.did != nextId) = none := by
    apply hpernone
    · intro doc hd hfold
      have hsig := (hclean doc hd hfold).1
      simp [hsig]
    · intro doc hfold
      have hnf : (doc.folderId == some fid) = false := by
        simpa using hfold
      simp [hnf]
    · simp
  simp only [visit_document_create, hrname, if_true]
  rw [hn1, hn2, hn3]

/-- Claim C5 (amended): the completion trigger is the presence of a truthy
`completed_document` payload in the written values — a write without the key,
or with a falsy payload, or on a request with no linked visit, is an
error-free no-op (beyond recording the payload), whatever the status flag;
when the payload is present the linked visit — contracted or non-contracted,
the request linking exactly one — is transitioned to `done` only if still
`pending`; but a repeated invocation for the same event, while performing no
further state transition, is *not* a document no-op: it stores one more
duplicate signed report document per call, for either variant. -/
theorem c5_sign_completion (st : SignSt) :
    (sign_request_write st none = st) ∧
    (sign_request_write st (some "") =
      { st with completedDocument := some "" }) ∧
    (∀ p, p ≠ "" → st.cv = none → st.ncv = none →
      sign_request_write st (some p) =
        { st with completedDocument := some p }) ∧
    (∀ p slot, p ≠ "" → st.cv = some slot → st.ncv = none →
      (slot.state = "pending" →
        (sign_request_write st (some p)).cv =
          some { slot with state := "done" }) ∧
      (slot.state ≠ "pending" →
        (sign_request_write st (some p)).cv = some slot)) ∧
    (∀ p slot pn root pfo, p ≠ "" → st.cv = some slot → st.ncv = none →
      slot.state = "done" → slot.partnerName = some pn →
      st.signedRootId = some root →
      st.folders.find? (fun fo => fo.name == pn && fo.parent == some root) =
        some pfo →
      (∀ doc ∈ st.docs, doc.folderId = some pfo.fid →
        ilikeContains doc.name "Signed" = true ∧
        doc.name ≠ stripSignedBase
          ("Signed Visit Report - " ++ slot.name ++ ".pdf")) →
      sign_request_write st (some p) =
        { st with
          cv := some slot,
          completedDocument := some p,
          docs := st.docs ++ [⟨st.nextDocId,
            "Signed Visit Report - " ++ slot.name ++ ".pdf", some pfo.fid⟩],
          nextDocId := st.nextDocId + 1 } ∧
      sign_request_write st (some p) ≠ st) ∧
    (∀ p slot, p ≠ "" → st.ncv = some slot → st.cv = none →
      (slot.state = "pending" →
        (sign_request_write st (some p)).ncv =
          some { slot with state := "done" }) ∧
      (slot.state ≠ "pending" →
        (sign_request_write st (some p)).ncv = some slot)) ∧
    (∀ p slot pn root pfo, p ≠ "" → st.ncv = some slot → st.cv = none →
      slot.state = "done" → slot.partnerName = some pn →
      st.signedRootId = some root →
      st.folders.find? (fun fo => fo.name == pn && fo.parent == some root) =
        some pfo →
      (∀ doc ∈ st.docs, doc.folderId = some pfo.fid →
        ilikeContains doc.name "Signed" = true ∧
        doc.name ≠ stripSignedBase
          ("Signed Visit Report - " ++ slot.name ++ ".pdf")) →
      sign_request_write st (some p) =
        { st with
          ncv := some slot,
          completedDocument := some p,
          docs := st.docs ++ [⟨st.nextDocId,
            "Signed Visit Report - " ++ slot.name ++ ".pdf", some pfo.fid⟩],
          nextDocId := st.nextDocId + 1 } ∧
      sign_request_write st (some p) ≠ st) := by
  refine ⟨rfl, rfl, ?_, ?_, ?_, ?_, ?_⟩
  · intro p hp hcv hncv
    simp [sign_request_write, hp, hcv, hncv]
  · intro p slot hp hcv hncv
    have hsave := save_preserves_links
      { st with cv := some slot, completedDocument := some p }
      slot.name slot.partnerName (some p)
    have hncv' : (save_signed_report_to_folder
        { st with cv := some slot, completedDocument := some p }
        slot.name slot.partnerName (some p)).ncv = none := by
      rw [hsave.2]
      exact hncv
    constructor
    · intro hpend
      simp only [sign_request_write, hp, if_neg, hcv]
      simp only [hpend]
      simp [hncv']
    · intro hpend
      have hpend' : (slot.state == "pending") = false := by
        simpa using hpend
      simp only [sign_request_write, hp, if_neg, hcv]
      simp only [hpend']
      simp [hncv', hsave.1]
  · intro p slot pn root pfo hp hcv hncv hdone hpn hroot hpf hclean
    have hvdc := signed_create_appends st.docs st.nextDocId slot.name
      pfo.fid hclean
    have hdone' : (slot.state == "pending") = false := by
      rw [hdone]
      rfl
    have hstep : sign_request_write st (some p) =
        { st with
          cv := some slot,
          completedDocument := some p,
          docs := st.docs ++ [⟨st.nextDocId,
            "Signed Visit Report - " ++ slot.name ++ ".pdf", some pfo.fid⟩],
          nextDocId := st.nextDocId + 1 } := by
      simp only [sign_request_write, hp, if_neg, hcv]
      simp only [hdone']
      simp only [save_signed_report_to_folder, hp, if_neg, hpn, hroot, hpf]
      simp only [hvdc]
      have hncv' : st.ncv = none := hncv
      simp [hncv']
    refine ⟨hstep, ?_⟩
    rw [hstep]
    intro hcontra
    have hd : st.docs ++ [(⟨st.nextDocId,
        "Signed Visit Report - " ++ slot.name ++ ".pdf",
        some pfo.fid⟩ : VDoc)] = st.docs := congrArg SignSt.docs hcontra
    have hlen := congrArg List.length hd
    rw [List.length_append] at hlen
    simp at hlen
  · intro p slot hp hncv hcv
    constructor
    · intro hpend
      simp only [sign_request_write, hp, if_neg, hcv, hncv]
      simp only [hpend]
      simp
    · intro hpend
      have hpend' : (slot.state == "pending") = false := by
        simpa using hpend
      simp only [sign_request_write, hp, if_neg, hcv, hncv]
      simp only [hpend']
      simp
  · intro p slot pn root pfo hp hncv hcv hdone hpn hroot hpf hclean
    have hvdc := signed_create_appends st.docs st.nextDocId slot.name
      pfo.fid hclean
    have hdone' : (slot.state == "pending") = false := by
      rw [hdone]
      rfl
    have hstep : sign_request_write st (some p) =
        { st with
          ncv := some slot,
          completedDocument := some p,
          docs := st.docs ++ [⟨st.nextDocId,
            "Signed Visit Report - " ++ slot.name ++ ".pdf", some pfo.fid⟩],
          nextDocId := st.nextDocId + 1 } := by
      simp only [sign_request_write, hp, if_neg, hcv, hncv]
      simp only [hdone']
      simp only [save_signed_report_to_folder, hp, if_neg, hpn, hroot, hpf]
      simp only [hvdc]
      simp [hcv]
    refine ⟨hstep, ?_⟩
    rw [hstep]
    intro hcontra
    have hd : st.docs ++ [(⟨st.nextDocId,
        "Signed Visit Report - " ++ slot.name ++ ".pdf",
        some pfo.fid⟩ : VDoc)] = st.docs := congrArg SignSt.docs hcontra
    have hlen := congrArg List.length hd
    rw [List.length_append] at hlen
    simp at hlen

/-- The request state after the first completion call of the counterexample
scenario: contracted visit already `done`, one signed report stored. -/
def signSt1 : SignSt :=
  { cv := some ⟨"Acme-VST-001", some "Acme", "done"⟩, ncv := none,
    reqState := "sent", completedDocument := some "PDF",
    folders := [⟨0, "Signed Reports", none⟩, ⟨1, "Acme", some 0⟩],
    nextFolderId := 2,
    docs := [⟨0, "Signed Visit Report - Acme-VST-001.pdf", some 1⟩],
    nextDocId := 1, signedRootId := some 0 }

/-- The analogous post-completion state for a request linked to a
non-contracted visit. -/
def signSt1n : SignSt :=
  { cv := none, ncv := some ⟨"Beta - NCV007", some "Beta", "done"⟩,
    reqState := "sent", completedDocument := some "PDF",
    folders := [⟨0, "Signed Reports", none⟩, ⟨1, "Beta", some 0⟩],
    nextFolderId := 2,
    docs := [⟨0, "Signed Visit Report - Beta - NCV007.pdf", some 1⟩],
    nextDocId := 1, signedRootId := some 0 }

theorem c5_witness :
    sign_request_write signSt1 (some "PDF") ≠ signSt1 ∧
    sign_request_write signSt1n (some "PDF") ≠ signSt1n :=
  ⟨((c5_sign_completion signSt1).2.2.2.2.1 "PDF"
      ⟨"Acme-VST-001", some "Acme", "done"⟩ "Acme" 0 ⟨1, "Acme", some 0⟩
      (by decide) rfl rfl rfl rfl rfl (by decide) (by decide)).2,
    ((c5_sign_completion signSt1n).2.2.2.2.2.2 "PDF"
      ⟨"Beta - NCV007", some "Beta", "done"⟩ "Beta" 0 ⟨1, "Beta", some 0⟩
      (by decide) rfl rfl rfl rfl rfl (by decide) (by decide)).2⟩

/-! ### Report generation (`_action_generate_report_document`)

The renderer (`report._render_qweb_pdf`) is an external collaborator; its
outcome for the current call is a parameter of the environment: `.ok pdf`
or `.error msg` (a raised exception). -/

instance exceptDecEq {ε α : Type} [DecidableEq ε] [DecidableEq α] :
    DecidableEq (Except ε α) := fun a b =>
  match a, b with
  | Except.ok x, Except.ok y =>
    if h : x = y then isTrue (by rw [h])
    else isFalse (by intro hc; cases hc; exact h rfl)
  | Except.ok _, Except.error _ => isFalse (by intro hc; cases hc)
  | Except.error _, Except.ok _ => isFalse (by intro hc; cases hc)
  | Except.error e, Except.error f =>
    if h : e = f then isTrue (by rw [h])
    else isFalse (by intro hc; cases hc; exact h rfl)

structure CVisit7 where
  name : String
  folderId : Option Nat
  reportDocId : Option Nat
deriving DecidableEq, Repr

structure DocSt where
  docs : List VDoc
  nextDocId : Nat
deriving DecidableEq, Repr

structure RenderEnv where
  renderResult : Except String String
  reportDefined : Bool
deriving DecidableEq, Repr

/-- `CompanyVisit._action_generate_report_document` (company_visit.py lines
182-214): skip when a report document is already linked or no folder is set;
skip when the report definition is missing; render and store inside
`try/except` — a renderer failure is caught and logged, the visit and the
document store are returned unchanged.  The function is total: it cannot
raise. -/
def cv_generate_report (env : RenderEnv) (v : CVisit7) (ds : DocSt) :
    CVisit7 × DocSt :=
  if v.reportDocId.isSome || v.folderId.isNone then (v, ds)
  else if !env.reportDefined then (v, ds)
  else
    match env.renderResult with
    | .error _ => (v, ds)
    | .ok _ =>
      let rname := "Visit Report - " ++ v.name ++ ".pdf"
      let r := visit_document_create ds.docs ds.nextDocId rname v.folderId
      ({ v with reportDocId := some ds.nextDocId }, ⟨r.1, r.2⟩)

/-- The report-generation loop run after `CompanyVisit.create` (lines
163-164): every failure is already swallowed inside the per-visit call, so
the whole batch always completes. -/
def cv_generate_batch (env : RenderEnv) : List CVisit7 → DocSt →
    List CVisit7 × DocSt
  | [], ds => ([], ds)
  | v :: vs, ds =>
    let r := cv_generate_report env v ds
    let rest := cv_generate_batch env vs r.2
    (r.1 :: rest.1, rest.2)

structure NCVisit7 where
  name : String
  partnerName : String
  visitDate : Date
  reportDocId : Option Nat
deriving DecidableEq, Repr

structure NCEnv where
  renderResult : Except String String
  reportDefined : Bool
  ncRootId : Option Nat
deriving DecidableEq, Repr

structure FoldDocSt where
  folders : List GFolder
  nextFolderId : Nat
  docs : List VDoc
  nextDocId : Nat
deriving DecidableEq, Repr

/-- `NotContractedVisit._action_generate_report_document`
(not_contracted_visit.py lines 135-186): skip when a report is linked; skip
when the well-known root folder reference is missing; find or create the
month subfolder; skip when the report definition is missing; then render
**without** any `try/except` — a renderer failure propagates out of the
method (`.error`). -/
def nc_generate_report (env : NCEnv) (v : NCVisit7) (st : FoldDocSt) :
    Except String (NCVisit7 × FoldDocSt) :=
  if v.reportDocId.isSome then Except.ok (v, st)
  else
    match env.ncRootId with
    | none => Except.ok (v, st)
    | some root =>
      let fname := fmtMonthFolder v.visitDate
      let mf :=
        match st.folders.find? fun fo =>
            fo.name == fname && fo.parent == some root with
        | some fo => (fo.fid, st)
        | none => (st.nextFolderId,
            { st with
              folders := st.folders
                ++ [(⟨st.nextFolderId, fname, some root⟩ : GFolder)],
              nextFolderId := st.nextFolderId + 1 })
      if !env.reportDefined then Except.ok (v, mf.2)
      else
        match env.renderResult with
        | .error e => Except.error e
        | .ok _ =>
          let rname := "Visit Report - " ++ v.partnerName ++ " - "
            ++ isoDate v.visitDate ++ ".pdf"
          let r := visit_document_create mf.2.docs mf.2.nextDocId rname
            (some mf.1)
          Except.ok ({ v with reportDocId := some mf.2.nextDocId },
            { mf.2 with docs := r.1, nextDocId := r.2 })

/-- The generation loop run after `NotContractedVisit.create` (lines
130-131): the first uncaught renderer failure aborts the loop and the whole
`create` call. -/
def nc_generate_batch (env : NCEnv) : List NCVisit7 → FoldDocSt →
    Except String (List NCVisit7 × FoldDocSt)
  | [], st => Except.ok ([], st)
  | v :: vs, st =>
    match nc_generate_report env v st with
    | Except.error e => Except.error e
    | Except.ok (v', st') =>
      match nc_generate_batch env vs st' with
      | Except.error e => Except.error e
      | Except.ok (vs', st'') => Except.ok (v' :: vs', st'')

/-! ### Claim C6 -/

def envCVFail : RenderEnv :=
  { renderResult := Except.error "render failed", reportDefined := true }

def envNCFail : NCEnv :=
  { renderResult := Except.error "render failed", reportDefined := true,
    ncRootId := some 0 }

def ncSt0 : FoldDocSt :=
  { folders := [⟨0, "Not Contracted Visits", none⟩], nextFolderId := 1,
    docs := [], nextDocId := 0 }

def ncV1 : NCVisit7 :=
  { name := "Acme - NCV001", partnerName := "Acme",
    visitDate := ⟨2025, 10, 12⟩, reportDocId := none }

def cvV1 : CVisit7 :=
  { name := "Acme-VST-001", folderId := some 11, reportDocId := none }

/-- Claim C6 failing input: with the renderer raising, the contracted
generation swallows the failure (visit and store unchanged, the whole batch
completes), but the non-contracted generation propagates the exception — the
`create` batch aborts, blocking the visit and its siblings, contrary to the
claim and to §7 of the specification. -/
theorem c6_render_failure :
    cv_generate_report envCVFail cvV1 ⟨[], 0⟩ = (cvV1, ⟨[], 0⟩) ∧
    cv_generate_batch envCVFail [cvV1, cvV1] ⟨[], 0⟩ =
      ([cvV1, cvV1], ⟨[], 0⟩) ∧
    nc_generate_report envNCFail ncV1 ncSt0 = Except.error "render failed" ∧
    nc_generate_batch envNCFail [ncV1, ncV1] ncSt0 =
      Except.error "render failed" := by
  decide

/-- The contracted generation can never fail, whatever the renderer does:
it is a total function and a renderer error returns the inputs unchanged. -/
theorem cv_generate_report_total (env : RenderEnv) (v : CVisit7) (ds : DocSt)
    (e : String) (herr : env.renderResult = Except.error e) :
    cv_generate_report env v ds = (v, ds) := by
  unfold cv_generate_report
  split
  · rfl
  · split
    · rfl
    · rw [herr]

/-! ### Claim C7 -/

/-- Claim C7: report generation is a no-op when the visit already has a
linked report document (both variants) or — for the contracted variant,
which owns a folder field — when no folder is set; consequently, once a
generation succeeds (the report link is set), any further generation call
changes nothing. -/
theorem c7_generate_noop (env env2 : RenderEnv) (nenv nenv2 : NCEnv)
    (v : CVisit7) (ds ds2 : DocSt) (nv : NCVisit7) (st st2 : FoldDocSt) :
    (v.reportDocId.isSome = true ∨ v.folderId = none →
      cv_generate_report env v ds = (v, ds)) ∧
    (nv.reportDocId.isSome = true →
      nc_generate_report nenv nv st = Except.ok (nv, st)) ∧
    (nenv.ncRootId = none →
      nc_generate_report nenv nv st = Except.ok (nv, st)) ∧
    ((cv_generate_report env v ds).1.reportDocId.isSome = true →
      cv_generate_report env2 (cv_generate_report env v ds).1 ds2 =
        ((cv_generate_report env v ds).1, ds2)) ∧
    (∀ nv' st', nc_generate_report nenv nv st = Except.ok (nv', st') →
      nv'.reportDocId.isSome = true →
      nc_generate_report nenv2 nv' st2 = Except.ok (nv', st2)) := by
  have hskip : ∀ (env' : RenderEnv) (v' : CVisit7) (ds' : DocSt),
      v'.reportDocId.isSome = true ∨ v'.folderId = none →
      cv_generate_report env' v' ds' = (v', ds') := by
    intro env' v' ds' h
    have hcond : (v'.reportDocId.isSome || v'.folderId.isNone) = true := by
      rcases h with h | h
      · simp [h]
      · simp [h]
    unfold cv_generate_report
    rw [if_pos hcond]
  have hnskip : ∀ (nenv' : NCEnv) (nv' : NCVisit7) (st' : FoldDocSt),
      nv'.reportDocId.isSome = true →
      nc_generate_report nenv' nv' st' = Except.ok (nv', st') := by
    intro nenv' nv' st' h
    unfold nc_generate_report
    rw [if_pos h]
  refine ⟨hskip env v ds, hnskip nenv nv st, ?_, ?_, ?_⟩
  · intro hroot
    unfold nc_generate_report
    split
    · rfl
    · rw [hroot]
  · intro hsucc
    exact hskip env2 _ ds2 (Or.inl hsucc)
  · intro nv' st' _ hsucc
    exact hnskip nenv2 nv' st2 hsucc

/-- Witness for C7 at a visit that already carries a report link. -/
theorem c7_witness :
    cv_generate_report envCVFail
        ⟨"Acme-VST-001", some 11, some 5⟩ ⟨[], 0⟩ =
      (⟨"Acme-VST-001", some 11, some 5⟩, ⟨[], 0⟩) :=
  (c7_generate_noop envCVFail envCVFail envNCFail envNCFail
      ⟨"Acme-VST-001", some 11, some 5⟩ ⟨[], 0⟩ ⟨[], 0⟩
      ncV1 ncSt0 ncSt0).1 (Or.inl (by decide))

/-! ### Extra-visit wizard (`action_create_extra_visits`) -/

structure WVisit where
  contractId : Nat
  folderId : Nat
  isExtra : Bool
  reportAttempted : Bool
deriving DecidableEq, Repr

structure WizSt where
  visits : List WVisit
deriving DecidableEq, Repr

/-- `ExtraVisitWizard.action_create_extra_visits` (extra_visit_wizard.py
lines 64-93): raise `UserError` when `number_of_visits <= 0` — before any
record is created; otherwise loop `number_of_visits` times creating one
visit per iteration, linked to the wizard's contract and month folder,
flagged `is_extra_visit`, with a report-generation attempt (`create` itself
triggers `_action_generate_report_document` and the wizard calls it again;
the numbering and document effects are the embeddings above). -/
def action_create_extra_visits (st : WizSt) (contractId folderId : Nat)
    (numberOfVisits : Int) : Except String WizSt :=
  if numberOfVisits ≤ 0 then
    Except.error "The number of visits must be greater than zero."
  else
    Except.ok
      { st with
        visits := st.visits ++ List.replicate numberOfVisits.toNat
          ⟨contractId, folderId, true, true⟩ }

/-! ### Claim C8 -/

/-- Claim C8: `action_create_extra_visits` rejects with a validation error
and creates zero visits whenever `number_of_visits ≤ 0`, the check running
before any side effect; for `n > 0` it creates exactly `n` visits, each
linked to the chosen contract and month folder, each flagged extra, each
with a report-generation attempt. -/
theorem c8_extra_visit_validation (st : WizSt) (cid fid : Nat) (n : Int) :
    (n ≤ 0 → action_create_extra_visits st cid fid n =
      Except.error "The number of visits must be greater than zero.") ∧
    (0 < n → ∃ st', action_create_extra_visits st cid fid n =
        Except.ok st' ∧
      st'.visits = st.visits ++ List.replicate n.toNat ⟨cid, fid, true, true⟩ ∧
      st'.visits.length = st.visits.length + n.toNat ∧
      ∀ v ∈ st'.visits.drop st.visits.length,
        v.contractId = cid ∧ v.folderId = fid ∧ v.isExtra = true ∧
          v.reportAttempted = true) := by
  constructor
  · intro h
    simp [action_create_extra_visits, h]
  · intro h
    have h' : ¬ n ≤ 0 := by omega
    have hok : action_create_extra_visits st cid fid n =
        Except.ok
          { st with
            visits := st.visits ++
              List.replicate n.toNat ⟨cid, fid, true, true⟩ } := by
      simp [action_create_extra_visits, h']
    refine ⟨_, hok, rfl, ?_, ?_⟩
    · simp
    · intro v hv
      rw [List.drop_left] at hv
      have := List.eq_of_mem_replicate hv
      rw [this]
      exact ⟨rfl, rfl, rfl, rfl⟩

/-- Witness for C8: rejection at 0, creation of exactly 3 extra visits. -/
theorem c8_witness :
    action_create_extra_visits ⟨[]⟩ 1 11 0 =
      Except.error "The number of visits must be greater than zero." ∧
    ∃ st', action_create_extra_visits ⟨[]⟩ 1 11 3 = Except.ok st' ∧
      st'.visits = [] ++ List.replicate (3 : Int).toNat ⟨1, 11, true, true⟩ ∧
      st'.visits.length = ([] : List WVisit).length + (3 : Int).toNat ∧
      ∀ v ∈ st'.visits.drop ([] : List WVisit).length,
        v.contractId = 1 ∧ v.folderId = 11 ∧ v.isExtra = true ∧
          v.reportAttempted = true :=
  ⟨(c8_extra_visit_validation ⟨[]⟩ 1 11 0).1 (by decide),
    (c8_extra_visit_validation ⟨[]⟩ 1 11 3).2 (by decide)⟩

/-! ### Visit state actions (`action_mark_done` / `action_cancel`) -/

/-- The `company.visit` fields beside `state` (names shortened). -/
structure V10 where
  name : String
  state : String
  reason : String
  visitDate : Date
  isExtra : Bool
deriving DecidableEq, Repr

/-- `CompanyVisit.action_mark_done` (company_visit.py lines 171-173):
`self.write({'state': 'done'})`, unconditionally; `write` returns `True`. -/
def action_mark_done (v : V10) : V10 × Bool :=
  ({ v with state := "done" }, true)

/-- `CompanyVisit.action_cancel` (company_visit.py lines 175-177). -/
def action_cancel (v : V10) : V10 × Bool :=
  ({ v with state := "cancelled" }, true)

/-- The `not.contracted.visit` fields beside `state`. -/
structure NV10 where
  name : String
  state : String
  partnerName : String
  visitDate : Date
deriving DecidableEq, Repr

/-- `NotContractedVisit.action_mark_done` (not_contracted_visit.py lines
364-366). -/
def nc_action_mark_done (v : NV10) : NV10 × Bool :=
  ({ v with state := "done" }, true)

/-- `NotContractedVisit.action_cancel` (not_contracted_visit.py lines
368-370). -/
def nc_action_cancel (v : NV10) : NV10 × Bool :=
  ({ v with state := "cancelled" }, true)

/-! ### Claim C10 -/

/-- Claim C10 (implicit): for both visit variants, `action_mark_done` and
`action_cancel` write the target state unconditionally — whatever the
current state, including moving a cancelled visit to done and a done visit
to cancelled — they never raise (total functions returning `write`'s
`True`), and no field other than `state` is modified. -/
theorem c10_state_actions (v : V10) (nv : NV10) :
    (action_mark_done v).1.state = "done" ∧
    (action_cancel v).1.state = "cancelled" ∧
    (action_mark_done v).2 = true ∧ (action_cancel v).2 = true ∧
    (action_mark_done (action_cancel v).1).1.state = "done" ∧
    (action_cancel (action_mark_done v).1).1.state = "cancelled" ∧
    (action_mark_done v).1.name = v.name ∧
    (action_mark_done v).1.reason = v.reason ∧
    (action_mark_done v).1.visitDate = v.visitDate ∧
    (action_mark_done v).1.isExtra = v.isExtra ∧
    (action_cancel v).1.name = v.name ∧
    (action_cancel v).1.reason = v.reason ∧
    (action_cancel v).1.visitDate = v.visitDate ∧
    (action_cancel v).1.isExtra = v.isExtra ∧
    (nc_action_mark_done nv).1.state = "done" ∧
    (nc_action_cancel nv).1.state = "cancelled" ∧
    (nc_action_mark_done nv).2 = true ∧ (nc_action_cancel nv).2 = true ∧
    (nc_action_mark_done (nc_action_cancel nv).1).1.state = "done" ∧
    (nc_action_cancel (nc_action_mark_done nv).1).1.state = "cancelled" ∧
    (nc_action_mark_done nv).1.name = nv.name ∧
    (nc_action_mark_done nv).1.partnerName = nv.partnerName ∧
    (nc_action_mark_done nv).1.visitDate = nv.visitDate ∧
    (nc_action_cancel nv).1.name = nv.name ∧
    (nc_action_cancel nv).1.partnerName = nv.partnerName ∧
    (nc_action_cancel nv).1.visitDate = nv.visitDate := by
  repeat' constructor

end CVT
